import Mathlib

/-!
Shallow embedding of the RFID access-control sketch
(src/Rfid_Master4_V1.ino and the full sketch reproduced in src/README.md,
which additionally contains the inactivity/sleep logic).

The EEPROM is modelled as a `List Nat` of byte cells (the source iterates
over `EEPROM.length()` cells, reading and writing single bytes).  The raw
card identifier is a `List Nat` of bytes.  Side effects of one pass through
`loop` (serial prints, LED and relay writes, blocking delays) are recorded
as an explicit list of `Action`s, in source order.
-/

namespace RfidAccess

/-- MASTER_UID1 from the source (line 7 of the sketch). -/
def MASTER_UID1 : Nat := 43

/-- MASTER_UID2 from the source (line 8 of the sketch). -/
def MASTER_UID2 : Nat := 98

/-- MASTER_UID3 from the source (line 9 of the sketch). -/
def MASTER_UID3 : Nat := 123

/-- MASTER_UID4 from the source (line 10 of the sketch). -/
def MASTER_UID4 : Nat := 456

/-- The byte-sum accumulator loop of `loop`:
`int uidSum = 0; for (...) uidSum += mfrc522.uid.uidByte[i];`.
The accumulator is a C `int`; MFRC522 UIDs are at most 10 bytes, so the sum
is at most 2550 and never overflows, hence plain `Nat` addition is exact. -/
def uidSum (raw : List Nat) : Nat := raw.foldl (fun acc b => acc + b) 0

/-- The credential reduction of `loop`: `int shrunkUID = uidSum % 100;`. -/
def shrunkUID (raw : List Nat) : Nat := uidSum raw % 100

/-- The master-UID test of `loop`:
`shrunkUID == MASTER_UID1 || ... || shrunkUID == MASTER_UID4`. -/
def isMasterUID (u : Nat) : Bool :=
  u == MASTER_UID1 || u == MASTER_UID2 || u == MASTER_UID3 || u == MASTER_UID4

/-- `findEEPROMAddress(int uid)`: linear scan of the EEPROM cells, returning
the first address whose cell equals `uid`; `none` models the C `-1`. -/
def findEEPROMAddress (uid : Nat) : List Nat → Option Nat
  | [] => none
  | b :: rest =>
    if b = uid then some 0 else (findEEPROMAddress uid rest).map (fun i => i + 1)

/-- `findEmptyEEPROMAddress()`: linear scan returning the first address whose
cell equals `0` (the empty-cell marker); `none` models the C `-1`. -/
def findEmptyEEPROMAddress : List Nat → Option Nat
  | [] => none
  | b :: rest =>
    if b = 0 then some 0 else (findEmptyEEPROMAddress rest).map (fun i => i + 1)

/-- The three indicator LEDs of the sketch. -/
inductive Led where
  | green
  | red
  | yellow
deriving DecidableEq, Repr

/-- One observable side effect inside a pass of `loop`, in source order:
serial output, LED/relay writes, blocking delays, and the PICC teardown. -/
inductive Action where
  | serialMsg (s : String)
  | serialNum (n : Nat)
  | ledOn (l : Led)
  | ledOff (l : Led)
  | relayOn
  | relayOff
  | delayMs (ms : Nat)
  | haltPICC
  | stopCrypto
deriving DecidableEq, Repr

/-- The mutable state of the sketch: the `manageMode` flag, the latched
output levels of the three LEDs and the relay, the EEPROM contents and
`lastActivityTime` (README sketch). -/
structure SysState where
  manageMode : Bool
  redLED : Bool
  greenLED : Bool
  yellowLED : Bool
  relay : Bool
  eeprom : List Nat
  lastActivityTime : Nat
deriving DecidableEq, Repr

/-- The card-processing body of `loop` (the code inside
`if (mfrc522.PICC_IsNewCardPresent() && mfrc522.PICC_ReadCardSerial())`,
after the activity refresh): reduces the UID, branches on master / manage /
normal exactly as the source, and returns the new state together with the
emitted actions.  Each branch lists its serial prints, LED/relay writes and
delays in source order; the `ledOff .red` ending every manage branch is the
common `digitalWrite(RED_LED_PIN, LOW)` after the add/remove `if`, and every
pass ends with `PICC_HaltA` and `PCD_StopCrypto1`. -/
def processCard (st : SysState) (raw : List Nat) : SysState × List Action :=
  let code := shrunkUID raw
  let header : List Action := [.serialMsg ("Card UID: "), .serialNum code]
  if isMasterUID code then
    if st.manageMode then
      ({ st with manageMode := false, redLED := false },
       header ++
       [.serialMsg ("Master card detected again. Exiting manage mode..."),
        .ledOff .red, .haltPICC, .stopCrypto])
    else
      ({ st with manageMode := true, redLED := true, greenLED := false,
                 relay := false },
       header ++
       [.serialMsg ("Master card detected. Entering manage mode..."),
        .ledOn .red, .ledOn .green, .relayOn, .delayMs 3000, .relayOff,
        .ledOff .green, .haltPICC, .stopCrypto])
  else
    if st.manageMode then
      match findEEPROMAddress code st.eeprom with
      | some existingAddress =>
        ({ st with eeprom := st.eeprom.set existingAddress 0,
                   yellowLED := false, manageMode := false, redLED := false },
         header ++
         [.serialMsg ("Scanned UID removed from EEPROM."),
          .ledOn .yellow, .delayMs 100, .ledOff .yellow,
          .ledOff .red, .haltPICC, .stopCrypto])
      | none =>
        match findEmptyEEPROMAddress st.eeprom with
        | some emptyAddress =>
          ({ st with eeprom := st.eeprom.set emptyAddress code,
                     yellowLED := false, manageMode := false, redLED := false },
           header ++
           [.serialMsg ("New card added to EEPROM at address "),
            .serialNum emptyAddress,
            .ledOn .yellow, .delayMs 1000, .ledOff .yellow,
            .ledOff .red, .haltPICC, .stopCrypto])
        | none =>
          ({ st with manageMode := false, redLED := false },
           header ++
           [.serialMsg ("EEPROM is full. Cannot add more cards."),
            .ledOff .red, .haltPICC, .stopCrypto])
    else
      if (findEEPROMAddress code st.eeprom).isSome then
        ({ st with greenLED := false, relay := false },
         header ++
         [.serialMsg ("Access granted."),
          .ledOn .green, .relayOn, .delayMs 3000, .relayOff, .ledOff .green,
          .haltPICC, .stopCrypto])
      else
        ({ st with redLED := false },
         header ++
         [.serialMsg ("Access denied."),
          .ledOn .red, .delayMs 2000, .ledOff .red,
          .haltPICC, .stopCrypto])

/-- Elapsed milliseconds as computed by `millis() - lastActivityTime` on a
32-bit `unsigned long`: subtraction modulo 2^32 (README sketch, line 153). -/
def elapsed (now last : Nat) : Nat := (now + 4294967296 - last) % 4294967296

/-- The inactivity threshold of the README sketch: 1800000 ms (30 minutes). -/
def inactivityThreshold : Nat := 1800000

/-- One pass of the README sketch's `loop`: first the inactivity check
(`millis() - lastActivityTime >= 1800000` triggers `goToSleep()`, reported
here as the `Bool` component), then, when a card is present, the refresh
`lastActivityTime = millis()` followed by the card processing. -/
def loopIter (st : SysState) (now : Nat) (card : Option (List Nat)) :
    SysState × Bool × List Action :=
  let slept := decide (inactivityThreshold ≤ elapsed now st.lastActivityTime)
  match card with
  | none => (st, slept, [])
  | some raw =>
    let st1 := { st with lastActivityTime := now }
    let r := processCard st1 raw
    (r.1, slept, r.2)

/-- A run of successive `loop` passes, each given its `millis()` reading and
the card present (if any); the `Bool` result records whether any pass
entered `goToSleep()`. -/
def runLoop (st : SysState) : List (Nat × Option (List Nat)) → SysState × Bool
  | [] => (st, false)
  | (now, card) :: rest =>
    let r := loopIter st now card
    let rr := runLoop r.1 rest
    (rr.1, r.2.1 || rr.2)

/-- A trace is frequent when every pass happens strictly within the
inactivity threshold of the last credential activity (which card events
refresh to the pass's own time). -/
def frequent (last : Nat) : List (Nat × Option (List Nat)) → Bool
  | [] => true
  | (now, card) :: rest =>
    decide (elapsed now last < inactivityThreshold) &&
      frequent (if card.isSome then now else last) rest

/-- Processing a whole sequence of presented cards, state after state. -/
def processCards (st : SysState) (raws : List (List Nat)) : SysState :=
  raws.foldl (fun s raw => (processCard s raw).1) st

/-- Store exclusivity: no non-empty code occupies two distinct EEPROM cells. -/
def Exclusive (e : List Nat) : Prop :=
  ∀ i, i < e.length → ∀ j, j < e.length → i ≠ j →
    e.getD i 0 ≠ 0 → e.getD i 0 ≠ e.getD j 0

instance (e : List Nat) : Decidable (Exclusive e) := by
  unfold Exclusive; infer_instance

/-- A Normal-mode state over an all-empty 10-cell EEPROM, as after first
boot with a blank EEPROM. -/
def st0 : SysState :=
  { manageMode := false, redLED := false, greenLED := false,
    yellowLED := false, relay := false, eeprom := List.replicate 10 0,
    lastActivityTime := 0 }

/-- A Manage-mode state over a completely full 3-cell store. -/
def stFull : SysState :=
  { st0 with manageMode := true, redLED := true, eeprom := [1, 2, 3] }

/-- A Manage-mode state over the store [5, 0, 0] (one card, two empty). -/
def stOne : SysState :=
  { st0 with manageMode := true, redLED := true, eeprom := [5, 0, 0] }

/-- A Manage-mode state over the blank 10-cell store. -/
def stManage : SysState := { st0 with manageMode := true, redLED := true }

/-! Basic facts about the two linear scans. -/

theorem find_eq_none_iff (uid : Nat) (e : List Nat) :
    findEEPROMAddress uid e = none ↔ ∀ x ∈ e, x ≠ uid := by
  induction e with
  | nil => simp [findEEPROMAddress]
  | cons b rest ih =>
    by_cases hb : b = uid
    · simp [findEEPROMAddress, hb]
    · simp only [findEEPROMAddress, if_neg hb, Option.map_eq_none', ih,
        List.mem_cons]
      constructor
      · rintro h x (rfl | hx)
        · exact hb
        · exact h x hx
      · exact fun h x hx => h x (Or.inr hx)

theorem find_eq_some (uid : Nat) (e : List Nat) (i : Nat)
    (h : findEEPROMAddress uid e = some i) :
    i < e.length ∧ e.getD i 0 = uid := by
  induction e generalizing i with
  | nil => simp [findEEPROMAddress] at h
  | cons b rest ih =>
    by_cases hb : b = uid
    · simp [findEEPROMAddress, hb] at h
      subst h
      simpa using hb
    · simp [findEEPROMAddress, hb] at h
      obtain ⟨k, hk, hki⟩ := h
      obtain ⟨h1, h2⟩ := ih k hk
      subst hki
      refine ⟨Nat.succ_lt_succ h1, ?_⟩
      rw [List.getD_cons_succ]
      exact h2

theorem findEmpty_eq_find_zero (e : List Nat) :
    findEmptyEEPROMAddress e = findEEPROMAddress 0 e := by
  induction e with
  | nil => rfl
  | cons b rest ih => simp [findEmptyEEPROMAddress, findEEPROMAddress, ih]

theorem findEmpty_eq_some (e : List Nat) (j : Nat)
    (h : findEmptyEEPROMAddress e = some j) :
    j < e.length ∧ e.getD j 0 = 0 := by
  rw [findEmpty_eq_find_zero] at h
  exact find_eq_some 0 e j h

theorem find_set_self (uid : Nat) (e : List Nat) (j : Nat)
    (hnone : findEEPROMAddress uid e = none) (hj : j < e.length) :
    findEEPROMAddress uid (e.set j uid) = some j := by
  induction e generalizing j with
  | nil => simp at hj
  | cons b rest ih =>
    by_cases hb : b = uid
    · simp [findEEPROMAddress, hb] at hnone
    · simp [findEEPROMAddress, hb] at hnone
      cases j with
      | zero => simp [List.set, findEEPROMAddress]
      | succ k =>
        simp only [List.set, findEEPROMAddress, if_neg hb]
        rw [ih k hnone (by simpa [Nat.succ_lt_succ_iff] using hj)]
        rfl

theorem getD_set_eq (e : List Nat) (k v : Nat) (hk : k < e.length) :
    (e.set k v).getD k 0 = v := by
  induction e generalizing k with
  | nil => simp at hk
  | cons b rest ih =>
    cases k with
    | zero => rfl
    | succ m =>
      simp only [List.set, List.getD]
      exact ih m (by simpa [Nat.succ_lt_succ_iff] using hk)

theorem getD_set_ne (e : List Nat) (k v i : Nat) (h : i ≠ k) :
    (e.set k v).getD i 0 = e.getD i 0 := by
  induction e generalizing k i with
  | nil => simp
  | cons b rest ih =>
    cases k with
    | zero =>
      cases i with
      | zero => exact absurd rfl h
      | succ m => rfl
    | succ n =>
      cases i with
      | zero => rfl
      | succ m =>
        simp only [List.set, List.getD]
        exact ih n m (fun hmn => h (by rw [hmn]))

theorem set_getD_self (e : List Nat) (j : Nat) (hj : j < e.length)
    (h : e.getD j 0 = 0) : e.set j 0 = e := by
  induction e generalizing j with
  | nil => simp at hj
  | cons b rest ih =>
    cases j with
    | zero =>
      simp only [List.getD_cons_zero] at h
      simp [List.set, h]
    | succ m =>
      simp only [List.getD_cons_succ] at h
      simp only [List.set]
      rw [ih m (by simpa [Nat.succ_lt_succ_iff] using hj) h]

theorem getD_mem (e : List Nat) (k : Nat) (hk : k < e.length) :
    e.getD k 0 ∈ e := by
  induction e generalizing k with
  | nil => simp at hk
  | cons b rest ih =>
    cases k with
    | zero => simp
    | succ m =>
      simp only [List.getD_cons_succ]
      exact List.mem_cons_of_mem b
        (ih m (by simpa [Nat.succ_lt_succ_iff] using hk))

/-- Auxiliary: the accumulator loop computes the mathematical byte sum. -/
theorem uidSum_eq_sum (raw : List Nat) : uidSum raw = raw.sum := by
  have h : ∀ (l : List Nat) (a : Nat),
      l.foldl (fun acc b => acc + b) a = a + l.sum := by
    intro l
    induction l with
    | nil => intro a; simp
    | cons b rest ih =>
      intro a
      simp only [List.foldl, List.sum_cons]
      rw [ih]
      omega
  simpa using h raw 0

/-- C6: the credential reducer is the deterministic pure function mapping a
raw identifier to the sum of its bytes reduced modulo 100; equal inputs give
equal outputs. -/
theorem c6_reducer_sum_mod_100 (r r1 r2 : List Nat) (h : r1 = r2) :
    shrunkUID r = r.sum % 100 ∧ shrunkUID r1 = shrunkUID r2 := by
  constructor
  · rw [shrunkUID, uidSum_eq_sum]
  · rw [h]

/-- C6 witness at concrete inputs. -/
theorem c6_reducer_sum_mod_100_witness :
    shrunkUID [100, 23] = ([100, 23] : List Nat).sum % 100 ∧
      shrunkUID [1, 2] = shrunkUID [1, 2] :=
  ⟨(c6_reducer_sum_mod_100 [100, 23] [1, 2] [1, 2] rfl).1,
   (c6_reducer_sum_mod_100 [100, 23] [1, 2] [1, 2] rfl).2⟩

/-- C10: every reduced code lies in [0, 99]; hence it can never equal the
compiled-in master codes 123 (MASTER_UID3) or 456 (MASTER_UID4), and the
master-UID test succeeds exactly when the reduced code is 43 or 98. -/
theorem c10_dead_master_codes (r : List Nat) :
    shrunkUID r < 100 ∧ shrunkUID r ≠ MASTER_UID3 ∧
      shrunkUID r ≠ MASTER_UID4 ∧
      (isMasterUID (shrunkUID r) = true ↔
        (shrunkUID r = MASTER_UID1 ∨ shrunkUID r = MASTER_UID2)) := by
  have h100 : shrunkUID r < 100 := Nat.mod_lt _ (by omega)
  refine ⟨h100, ?_, ?_, ?_⟩
  · simp only [MASTER_UID3]; omega
  · simp only [MASTER_UID4]; omega
  · simp only [isMasterUID, Bool.or_eq_true, beq_iff_eq,
      MASTER_UID1, MASTER_UID2, MASTER_UID3, MASTER_UID4]
    omega

/-- C8: processing any card in Normal mode leaves every EEPROM cell
unchanged (grant, deny and master-entry branches all skip the writes). -/
theorem c8_normal_mode_preserves_store (st : SysState) (raw : List Nat)
    (hmode : st.manageMode = false) :
    (processCard st raw).1.eeprom = st.eeprom := by
  by_cases hm : isMasterUID (shrunkUID raw)
  · simp [processCard, hm, hmode]
  · by_cases hf : (findEEPROMAddress (shrunkUID raw) st.eeprom).isSome
    · simp [processCard, hm, hmode, hf]
    · simp [processCard, hm, hmode, hf]

/-- C8 witness: a denied non-master card in Normal mode leaves the store
unchanged. -/
theorem c8_normal_mode_preserves_store_witness :
    (processCard st0 [7]).1.eeprom = st0.eeprom :=
  c8_normal_mode_preserves_store st0 [7] rfl

/-- C1: evaluation of the code at the failing input.  Over a store with an
empty first cell, `findEEPROMAddress 0` returns that sentinel-holding cell
as a match, and a card whose bytes sum to 100 (reduced code 0) is granted
access in Normal mode on the basis of that empty-slot match. -/
theorem c1_sentinel_matched_and_granted :
    shrunkUID [100] = 0 ∧
      st0.eeprom.getD 0 0 = 0 ∧
      findEEPROMAddress 0 st0.eeprom = some 0 ∧
      (processCard st0 [100]).2 =
        [.serialMsg ("Card UID: "), .serialNum 0,
         .serialMsg ("Access granted."),
         .ledOn .green, .relayOn, .delayMs 3000, .relayOff, .ledOff .green,
         .haltPICC, .stopCrypto] :=
  ⟨rfl, rfl, rfl, rfl⟩

/-- C2: a master credential always toggles the mode and never reaches the
grant/deny or add/remove branches: from Normal it enters Manage, latches the
red (admin) LED on and pulses the green LED and relay for the fixed 3000 ms
master-enter duration; from Manage it returns to Normal and turns the red
LED off with no actuation; the store is untouched and a second master
presentation restores the original mode. -/
theorem c2_master_toggles_mode (st : SysState) (raw : List Nat)
    (hm : isMasterUID (shrunkUID raw) = true) :
    (st.manageMode = false →
       (processCard st raw).1.manageMode = true ∧
       (processCard st raw).1.redLED = true ∧
       (processCard st raw).2 =
         [.serialMsg ("Card UID: "), .serialNum (shrunkUID raw),
          .serialMsg ("Master card detected. Entering manage mode..."),
          .ledOn .red, .ledOn .green, .relayOn, .delayMs 3000, .relayOff,
          .ledOff .green, .haltPICC, .stopCrypto]) ∧
    (st.manageMode = true →
       (processCard st raw).1.manageMode = false ∧
       (processCard st raw).1.redLED = false ∧
       (processCard st raw).2 =
         [.serialMsg ("Card UID: "), .serialNum (shrunkUID raw),
          .serialMsg ("Master card detected again. Exiting manage mode..."),
          .ledOff .red, .haltPICC, .stopCrypto]) ∧
    (processCard st raw).1.eeprom = st.eeprom ∧
    (processCard (processCard st raw).1 raw).1.manageMode = st.manageMode := by
  cases hmode : st.manageMode
  · refine ⟨fun _ => ?_, fun h => absurd h (by simp), ?_, ?_⟩
    · simp [processCard, hm, hmode]
    · simp [processCard, hm, hmode]
    · simp [processCard, hm, hmode]
  · refine ⟨fun h => absurd h (by simp), fun _ => ?_, ?_, ?_⟩
    · simp [processCard, hm, hmode]
    · simp [processCard, hm, hmode]
    · simp [processCard, hm, hmode]

/-- C2 witness: master code 43 presented twice from the boot state. -/
theorem c2_master_toggles_mode_witness :
    (st0.manageMode = false →
       (processCard st0 [43]).1.manageMode = true ∧
       (processCard st0 [43]).1.redLED = true ∧
       (processCard st0 [43]).2 =
         [.serialMsg ("Card UID: "), .serialNum (shrunkUID [43]),
          .serialMsg ("Master card detected. Entering manage mode..."),
          .ledOn .red, .ledOn .green, .relayOn, .delayMs 3000, .relayOff,
          .ledOff .green, .haltPICC, .stopCrypto]) ∧
    (st0.manageMode = true →
       (processCard st0 [43]).1.manageMode = false ∧
       (processCard st0 [43]).1.redLED = false ∧
       (processCard st0 [43]).2 =
         [.serialMsg ("Card UID: "), .serialNum (shrunkUID [43]),
          .serialMsg ("Master card detected again. Exiting manage mode..."),
          .ledOff .red, .haltPICC, .stopCrypto]) ∧
    (processCard st0 [43]).1.eeprom = st0.eeprom ∧
    (processCard (processCard st0 [43]).1 [43]).1.manageMode =
      st0.manageMode :=
  c2_master_toggles_mode st0 [43] (by decide)

/-- C3: any non-master card processed in Manage mode ends the pass with the
mode back to Normal and the admin (red) LED off, in all three outcomes
(removal, addition, store-full). -/
theorem c3_manage_always_reverts (st : SysState) (raw : List Nat)
    (hm : isMasterUID (shrunkUID raw) = false) (hmode : st.manageMode = true) :
    (processCard st raw).1.manageMode = false ∧
      (processCard st raw).1.redLED = false := by
  cases hfind : findEEPROMAddress (shrunkUID raw) st.eeprom
  · cases hempty : findEmptyEEPROMAddress st.eeprom
    · simp [processCard, hm, hmode, hfind, hempty]
    · simp [processCard, hm, hmode, hfind, hempty]
  · simp [processCard, hm, hmode, hfind]

/-- C3 witness: in Manage mode over the blank store, card 7 is added and the
mode reverts with the admin LED off. -/
theorem c3_manage_always_reverts_witness :
    (processCard { st0 with manageMode := true, redLED := true } [7]
        ).1.manageMode = false ∧
      (processCard { st0 with manageMode := true, redLED := true } [7]
        ).1.redLED = false :=
  c3_manage_always_reverts { st0 with manageMode := true, redLED := true }
    [7] (by decide) rfl

/-- C5: in Manage mode, a non-master code absent from a completely full
store takes the store-full path: the store-full message is emitted, the
store is byte-for-byte unchanged, no yellow indicator pulse occurs, and the
pass completes normally (mode back to Normal). -/
theorem c5_store_full_reported (st : SysState) (raw : List Nat)
    (hmode : st.manageMode = true)
    (hm : isMasterUID (shrunkUID raw) = false)
    (hfull : ∀ x ∈ st.eeprom, x ≠ 0)
    (hnot : shrunkUID raw ∉ st.eeprom) :
    (processCard st raw).1.eeprom = st.eeprom ∧
      (processCard st raw).2 =
        [.serialMsg ("Card UID: "), .serialNum (shrunkUID raw),
         .serialMsg ("EEPROM is full. Cannot add more cards."),
         .ledOff .red, .haltPICC, .stopCrypto] ∧
      (∀ a ∈ (processCard st raw).2, a ≠ Action.ledOn Led.yellow) ∧
      (processCard st raw).1.manageMode = false := by
  have hfind : findEEPROMAddress (shrunkUID raw) st.eeprom = none :=
    (find_eq_none_iff _ _).mpr fun x hx hxe => hnot (hxe ▸ hx)
  have hempty : findEmptyEEPROMAddress st.eeprom = none := by
    rw [findEmpty_eq_find_zero]
    exact (find_eq_none_iff _ _).mpr hfull
  refine ⟨?_, ?_, ?_, ?_⟩
  · simp [processCard, hm, hmode, hfind, hempty]
  · simp [processCard, hm, hmode, hfind, hempty]
  · simp [processCard, hm, hmode, hfind, hempty]
  · simp [processCard, hm, hmode, hfind, hempty]

/-- C5 witness: a full 3-cell store, card 7 in Manage mode. -/
theorem c5_store_full_reported_witness :
    (processCard stFull [7]).1.eeprom = stFull.eeprom ∧
      (processCard stFull [7]).2 =
        [.serialMsg ("Card UID: "), .serialNum (shrunkUID [7]),
         .serialMsg ("EEPROM is full. Cannot add more cards."),
         .ledOff .red, .haltPICC, .stopCrypto] ∧
      (∀ a ∈ (processCard stFull [7]).2, a ≠ Action.ledOn Led.yellow) ∧
      (processCard stFull [7]).1.manageMode = false :=
  c5_store_full_reported stFull [7] rfl (by decide) (by decide) (by decide)

/-- C7: add then remove is a round trip.  From a Manage-mode state whose
store satisfies exclusivity, adding a fresh non-zero code (which lands in
the first empty cell `j`), re-entering Manage with a master card, and
presenting the same code again (which removes it) restores the store
byte-for-byte; cell `j` held the sentinel before and holds it again. -/
theorem c7_add_remove_roundtrip (st : SysState) (raw mraw : List Nat)
    (j : Nat) (hmode : st.manageMode = true) (_hexcl : Exclusive st.eeprom)
    (hm : isMasterUID (shrunkUID raw) = false)
    (hmm : isMasterUID (shrunkUID mraw) = true)
    (_hc : shrunkUID raw ≠ 0) (hnot : shrunkUID raw ∉ st.eeprom)
    (hempty : findEmptyEEPROMAddress st.eeprom = some j) :
    (processCard (processCard (processCard st raw).1 mraw).1 raw).1.eeprom =
        st.eeprom ∧ st.eeprom.getD j 0 = 0 := by
  obtain ⟨hj, hj0⟩ := findEmpty_eq_some st.eeprom j hempty
  have hfind : findEEPROMAddress (shrunkUID raw) st.eeprom = none :=
    (find_eq_none_iff _ _).mpr fun x hx hxe => hnot (hxe ▸ hx)
  have hfind2 := find_set_self (shrunkUID raw) st.eeprom j hfind hj
  refine ⟨?_, hj0⟩
  simp only [processCard, hm, hmode, hfind, hempty, hmm, if_neg (by
    simp [hm] : ¬ isMasterUID (shrunkUID raw) = true)]
  simp [hfind2, List.set_set]
  exact set_getD_self st.eeprom j hj hj0

/-- C7 witness: store [5, 0, 0] in Manage mode, code 7 added at cell 1 and
removed again via master card 43. -/
theorem c7_add_remove_roundtrip_witness :
    (processCard (processCard (processCard stOne [7]).1 [43]).1 [7]).1.eeprom
        = stOne.eeprom ∧ stOne.eeprom.getD 1 0 = 0 :=
  c7_add_remove_roundtrip stOne [7] [43] 1 rfl (by decide) (by decide)
    (by decide) (by decide) (by decide) (by decide)

/-- Auxiliary: clearing a cell to the sentinel preserves store exclusivity. -/
theorem exclusive_set_zero (e : List Nat) (k : Nat) (h : Exclusive e) :
    Exclusive (e.set k 0) := by
  intro i hi j hj hij hi0
  rw [List.length_set] at hi hj
  by_cases hik : i = k
  · subst hik
    rw [getD_set_eq e i 0 hi] at hi0
    exact absurd rfl hi0
  · rw [getD_set_ne e k 0 i hik] at hi0 ⊢
    by_cases hjk : j = k
    · subst hjk
      rw [getD_set_eq e j 0 hj]
      exact hi0
    · rw [getD_set_ne e k 0 j hjk]
      exact h i hi j hj hij hi0

/-- Auxiliary: writing a non-zero code absent from the store into any cell
preserves store exclusivity. -/
theorem exclusive_set_new (e : List Nat) (k c : Nat) (_hc : c ≠ 0)
    (hnotin : ∀ x ∈ e, x ≠ c) (h : Exclusive e) : Exclusive (e.set k c) := by
  intro i hi j hj hij hi0
  rw [List.length_set] at hi hj
  by_cases hik : i = k
  · subst hik
    rw [getD_set_eq e i c hi]
    rw [getD_set_ne e i c j (fun hh => hij hh.symm)]
    exact fun hval => hnotin (e.getD j 0) (getD_mem e j hj) hval.symm
  · rw [getD_set_ne e k c i hik] at hi0 ⊢
    by_cases hjk : j = k
    · subst hjk
      rw [getD_set_eq e j c hj]
      exact fun hval => hnotin (e.getD i 0) (getD_mem e i hi) hval
    · rw [getD_set_ne e k c j hjk]
      exact h i hi j hj hij hi0

/-- Auxiliary: one pass of card processing preserves store exclusivity. -/
theorem exclusive_processCard (st : SysState) (raw : List Nat)
    (h : Exclusive st.eeprom) : Exclusive (processCard st raw).1.eeprom := by
  by_cases hm : isMasterUID (shrunkUID raw)
  · cases hmode : st.manageMode
    · simpa [processCard, hm, hmode] using h
    · simpa [processCard, hm, hmode] using h
  · cases hmode : st.manageMode
    · by_cases hf : (findEEPROMAddress (shrunkUID raw) st.eeprom).isSome
      · simpa [processCard, hm, hmode, hf] using h
      · simpa [processCard, hm, hmode, hf] using h
    · cases hfind : findEEPROMAddress (shrunkUID raw) st.eeprom with
      | some k =>
        have hgoal : Exclusive (st.eeprom.set k 0) :=
          exclusive_set_zero st.eeprom k h
        simpa [processCard, hm, hmode, hfind] using hgoal
      | none =>
        cases hempty : findEmptyEEPROMAddress st.eeprom with
        | some k =>
          obtain ⟨hk, hk0⟩ := findEmpty_eq_some st.eeprom k hempty
          have hnotin : ∀ x ∈ st.eeprom, x ≠ shrunkUID raw :=
            (find_eq_none_iff _ _).mp hfind
          have hc : shrunkUID raw ≠ 0 := by
            intro h0
            exact hnotin 0 (hk0 ▸ getD_mem st.eeprom k hk) h0.symm
          have hgoal : Exclusive (st.eeprom.set k (shrunkUID raw)) :=
            exclusive_set_new st.eeprom k _ hc hnotin h
          simpa [processCard, hm, hmode, hfind, hempty] using hgoal
        | none =>
          simpa [processCard, hm, hmode, hfind, hempty] using h

/-- C4: store exclusivity is an invariant of every reachable store state:
from any store with no duplicate non-empty code, no sequence of presented
credentials ever produces a duplicate non-empty code in two cells. -/
theorem c4_store_exclusivity_invariant (st : SysState)
    (raws : List (List Nat)) (h : Exclusive st.eeprom) :
    Exclusive (processCards st raws).eeprom := by
  induction raws generalizing st with
  | nil => exact h
  | cons raw rest ih => exact ih _ (exclusive_processCard st raw h)

/-- C4 witness: the blank store is exclusive and stays exclusive across an
add, a master toggle and a second event. -/
theorem c4_store_exclusivity_invariant_witness :
    Exclusive stManage.eeprom ∧
      Exclusive (processCards stManage [[7], [43], [7]]).eeprom :=
  ⟨by decide, c4_store_exclusivity_invariant stManage [[7], [43], [7]]
    (by decide)⟩

/-- Auxiliary: card processing never touches `lastActivityTime`. -/
theorem processCard_lastActivity (st : SysState) (raw : List Nat) :
    (processCard st raw).1.lastActivityTime = st.lastActivityTime := by
  by_cases hm : isMasterUID (shrunkUID raw)
  · cases hmode : st.manageMode
    · simp [processCard, hm, hmode]
    · simp [processCard, hm, hmode]
  · cases hmode : st.manageMode
    · by_cases hf : (findEEPROMAddress (shrunkUID raw) st.eeprom).isSome
      · simp [processCard, hm, hmode, hf]
      · simp [processCard, hm, hmode, hf]
    · cases hfind : findEEPROMAddress (shrunkUID raw) st.eeprom with
      | some k => simp [processCard, hm, hmode, hfind]
      | none =>
        cases hempty : findEmptyEEPROMAddress st.eeprom with
        | some k => simp [processCard, hm, hmode, hfind, hempty]
        | none => simp [processCard, hm, hmode, hfind, hempty]

/-- Auxiliary: over a frequent trace (every pass strictly within the
inactivity threshold of the last credential activity), no pass of the loop
enters sleep. -/
theorem runLoop_no_sleep (trace : List (Nat × Option (List Nat))) :
    ∀ st : SysState, frequent st.lastActivityTime trace = true →
      (runLoop st trace).2 = false := by
  induction trace with
  | nil => intro st _; rfl
  | cons p rest ih =>
    obtain ⟨now, card⟩ := p
    intro st hfreq
    simp only [frequent, Bool.and_eq_true, decide_eq_true_eq] at hfreq
    obtain ⟨hlt, hrest⟩ := hfreq
    have hslept :
        decide (inactivityThreshold ≤ elapsed now st.lastActivityTime)
          = false := by
      simp only [decide_eq_false_iff_not]
      omega
    cases card with
    | none =>
      have hr : (runLoop st rest).2 = false := by
        apply ih
        simpa using hrest
      simp only [runLoop, loopIter, hslept, hr, Bool.or_false]
    | some raw =>
      have hr :
          (runLoop (processCard { st with lastActivityTime := now } raw).1
            rest).2 = false := by
        apply ih
        rw [processCard_lastActivity]
        simpa using hrest
      simp only [runLoop, loopIter, hslept, hr, Bool.or_false]

/-- C9: the loop's sleep entry fires only when at least the 30-minute
threshold has elapsed since the last activity; every card event refreshes
`lastActivityTime` to the current `millis()` reading before processing (the
processed state carries the refreshed timestamp); consequently a run in
which every pass stays strictly within the threshold of the last credential
activity never enters sleep. -/
theorem c9_inactivity_sleep (st : SysState)
    (trace : List (Nat × Option (List Nat)))
    (hfreq : frequent st.lastActivityTime trace = true) :
    (runLoop st trace).2 = false ∧
      (∀ (st1 : SysState) (now : Nat) (card : Option (List Nat)),
        (loopIter st1 now card).2.1 = true →
          inactivityThreshold ≤ elapsed now st1.lastActivityTime) ∧
      (∀ (st1 : SysState) (now : Nat) (raw : List Nat),
        (loopIter st1 now (some raw)).1.lastActivityTime = now) := by
  refine ⟨runLoop_no_sleep trace st hfreq, ?_, ?_⟩
  · intro st1 now card hslept
    cases card with
    | none =>
      simp only [loopIter, decide_eq_true_eq] at hslept
      exact hslept
    | some raw =>
      simp only [loopIter, decide_eq_true_eq] at hslept
      exact hslept
  · intro st1 now raw
    simp only [loopIter]
    rw [processCard_lastActivity]

/-- C9 witness: two card events 1000 ms apart never trigger sleep. -/
theorem c9_inactivity_sleep_witness :
    frequent st0.lastActivityTime [(1000, some [7]), (2000, some [8])]
        = true ∧
      (runLoop st0 [(1000, some [7]), (2000, some [8])]).2 = false :=
  ⟨by decide,
   (c9_inactivity_sleep st0 [(1000, some [7]), (2000, some [8])]
      (by decide)).1⟩

end RfidAccess
